import Mathlib

/-!
Shallow embedding of the core of getsentry/pypi (src/build.py and
src/validate.py): tag computation, wheel architecture verification,
download/build acquisition, availability queries, the native-binary
heuristic, scoped system-dependency installation and the validate-side
interpreter selection and import derivation.

Python byte strings and text are modelled as `String`, sets as
`Finset`, dicts as association lists, and functions that may raise as
`Except String`.  Archive members carry their name and contents.
-/

deriving instance DecidableEq for Except

namespace PyPi

/-- A wheel compatibility tag `(interpreter, abi, platform)`, as produced by
`packaging.tags.Tag` and as parsed from wheel filenames. -/
structure Tag where
  interpreter : String
  abi : String
  platform : String
deriving DecidableEq, Repr

/-- A member of a zip archive (a wheel or sdist): its path inside the archive
and its contents. -/
structure ZipEntry where
  name : String
  contents : String
deriving DecidableEq, Repr

/-- Index of the last occurrence of `c` in `l` (Python `str.rfind` on a hit). -/
def rfindAux (c : Char) : List Char → Option Nat
  | [] => none
  | ch :: rest =>
    match rfindAux c rest with
    | some i => some (i + 1)
    | none => if ch = c then some 0 else none

/-- Decides whether `sub` occurs contiguously inside the second list. -/
def isSubList (sub : List Char) : List Char → Bool
  | [] => sub.isEmpty
  | c :: rest => sub.isPrefixOf (c :: rest) || isSubList sub rest

/-- Python `sub in s` substring containment. -/
def containsStr (s sub : String) : Bool := isSubList sub.data s.data

/-- Python `s.startswith(p)`. -/
def strStartsWith (s p : String) : Bool := p.data.isPrefixOf s.data

/-- Python `s.endswith(p)`. -/
def strEndsWith (s p : String) : Bool := p.data.reverse.isPrefixOf s.data.reverse

/-- Split a character list at every character satisfying `p`
(generalizes Python `str.split(sep)` for one-character separators). -/
def splitPredAux (p : Char → Bool) : List Char → List Char → List String
  | [], cur => [String.mk cur.reverse]
  | x :: xs, cur =>
    if p x then String.mk cur.reverse :: splitPredAux p xs []
    else splitPredAux p xs (x :: cur)

/-- Python `s.split(c)` for a one-character separator `c`. -/
def splitOnChar (s : String) (c : Char) : List String :=
  splitPredAux (fun x => x = c) s.data []

/-- Python string comparison: lexicographic by code point. -/
def charListLe : List Char → List Char → Bool
  | [], _ => true
  | _ :: _, [] => false
  | a :: as, b :: bs =>
    if a.toNat < b.toNat then true
    else if a.toNat = b.toNat then charListLe as bs
    else false

/-- Whether `a <= b` on strings, Python semantics. -/
def strLe (a b : String) : Bool := charListLe a.data b.data

/-- Insert into a sorted list of strings. -/
def insertSorted (x : String) : List String → List String
  | [] => [x]
  | y :: ys => if strLe x y then x :: y :: ys else y :: insertSorted x ys

/-- Python `sorted` on a list of strings (insertion sort). -/
def sortStrings (l : List String) : List String := l.foldr insertSorted []

/-- Append preserving first-insertion order, as a Python set/dict insert. -/
def listAddUnique (l : List String) (x : String) : List String :=
  if x ∈ l then l else l ++ [x]

/-- Python `os.path.basename` (posix): everything after the last `/`. -/
def basename (p : String) : String :=
  match rfindAux '/' p.data with
  | none => p
  | some i => String.mk (p.data.drop (i + 1))

/-- Python `os.path.splitext` (posix): split off the extension at the last
dot, unless every character of the final path component before that dot is
itself a dot. -/
def splitext (p : String) : String × String :=
  let cs := p.data
  let sepIdx : Int := (rfindAux '/' cs).elim (-1) Int.ofNat
  let dotIdx : Int := (rfindAux '.' cs).elim (-1) Int.ofNat
  if sepIdx < dotIdx then
    let d := dotIdx.toNat
    let f := (sepIdx + 1).toNat
    if ((cs.drop f).take (d - f)).any (fun c => !(c = '.')) then
      (String.mk (cs.take d), String.mk (cs.drop d))
    else (p, "")
  else (p, "")

/-- Matcher for the regular expressions `^[^/]+.data/scripts/[^/]+$` and
`^[^/]+.dist-info/[^/]+$` (note the unescaped dot, which matches any
character): one or more non-slash characters, one arbitrary character, the
literal `lit`, then one or more non-slash characters to the end. -/
def reAnyMidMatch (lit : List Char) (cs : List Char) : Bool :=
  (List.range cs.length).any fun i =>
    decide (1 ≤ i) && (cs.take i).all (fun c => !(c = '/')) &&
    lit.isPrefixOf (cs.drop (i + 1)) &&
    (let post := cs.drop (i + 1 + lit.length)
     !post.isEmpty && post.all (fun c => !(c = '/')))

/-- build.py `DATA_SCRIPTS = re.compile(r"^[^/]+.data/scripts/[^/]+(?<!\.py)$")`. -/
def dataScriptsMatchBuild (name : String) : Bool :=
  reAnyMidMatch "data/scripts/".data name.data && !(strEndsWith name ".py")

/-- validate.py `DATA_SCRIPTS = re.compile(r"^[^/]+.data/scripts/[^/]+$")`
(no trailing `(?<!\.py)` lookbehind, unlike build.py). -/
def dataScriptsMatchValidate (name : String) : Bool :=
  reAnyMidMatch "data/scripts/".data name.data

/-- validate.py `DIST_INFO_RE = re.compile(r"^[^/]+.dist-info/[^/]+$")`. -/
def distInfoMatch (name : String) : Bool :=
  reAnyMidMatch "dist-info/".data name.data

/-- Boolean test for an `Except` value being `ok` (a call that did not raise). -/
def exOk {ε α : Type} : Except ε α → Bool
  | .ok _ => true
  | .error _ => false

/-! ## Expected architectures from a wheel filename
(`_expected_archs_for_wheel`, identical in build.py and validate.py) -/

/-- Loop body of `_expected_archs_for_wheel`: fold the dotted platform
segments into the claimed architecture set; an unrecognized segment raises. -/
def expectedArchsGo : List String → Finset String → Except String (Finset String)
  | [], acc => .ok acc
  | plat :: rest, acc =>
    if plat = "any" then expectedArchsGo rest acc
    else if strEndsWith plat "_intel" then expectedArchsGo rest (insert "x86_64" acc)
    else if strEndsWith plat "_universal2" then
      expectedArchsGo rest (insert "x86_64" (insert "arm64" acc))
    else if strEndsWith plat "_aarch64" then expectedArchsGo rest (insert "aarch64" acc)
    else if strEndsWith plat "_arm64" then expectedArchsGo rest (insert "arm64" acc)
    else if strEndsWith plat "_x86_64" then expectedArchsGo rest (insert "x86_64" acc)
    else .error ("unexpected plat=" ++ plat)

/-- Function `_expected_archs_for_wheel(filename)`: decode the final dash-segment of
the filename stem (the platform tag, possibly dotted) into the architecture
set it claims. -/
def expected_archs_for_wheel (filename : String) : Except String (Finset String) :=
  let stem := (splitext (basename filename)).1
  let parts := splitOnChar stem '-'
  expectedArchsGo (splitOnChar (parts.getLastD "") '.') ∅

/-! ## Native-member collection and the two architecture checks -/

/-- The members `_check_arch` (build.py) collects for introspection: paths
under a `tests` directory are skipped; shared/dynamic libraries and
non-Python data-scripts payloads lacking a `#!` shebang are kept. -/
def arch_files_build (entries : List ZipEntry) : List String :=
  entries.filterMap fun e =>
    if containsStr e.name "/tests/" then none
    else if strEndsWith e.name ".so" || strEndsWith e.name ".dylib" ||
        containsStr e.name ".so." then some e.name
    else if dataScriptsMatchBuild e.name && !(String.mk (e.contents.data.take 2) = "#!") then
      some e.name
    else none

/-- The members `_validate` (validate.py) collects for introspection: same
shapes as the build-side collector but with no `tests`-directory exclusion
(and the data-scripts pattern without the `.py` exclusion). -/
def arch_files_validate (entries : List ZipEntry) : List String :=
  entries.filterMap fun e =>
    if strEndsWith e.name ".so" || strEndsWith e.name ".dylib" ||
        containsStr e.name ".so." then some e.name
    else if dataScriptsMatchValidate e.name && !(String.mk (e.contents.data.take 2) = "#!") then
      some e.name
    else none

/-- The mismatch reason string `_check_arch` returns. -/
def archMismatchMsgBuild (f : String) (expected received : Finset String) : String :=
  "-> " ++ f ++ " has mismatched architectures\n" ++
    "---> expected " ++ String.intercalate ", " (expected.sort (fun a b => a ≤ b)) ++ "\n" ++
    "---> received " ++ String.intercalate ", " (received.sort (fun a b => a ≤ b)) ++ "\n"

/-- Loop of `_check_arch`: return the first member whose observed
architecture set does not cover (`(archs & archs_for_file) != archs`) the
expected set; `none` when every member passes. `getArchs` stands for the
platform introspection (`otool` on Darwin, `file` on Linux) keyed by the
extracted member path. -/
def checkArchGo (archs : Finset String) (getArchs : String → Finset String) :
    List String → Option String
  | [] => none
  | f :: rest =>
    let afs := getArchs f
    if (archs ∩ afs) ≠ archs then some (archMismatchMsgBuild f archs afs)
    else checkArchGo archs getArchs rest

/-- build.py `_check_arch(filename)`, over the archive's members and an
architecture oracle: `ok none` means the wheel passed; `ok (some reason)`
is a mismatch; `error` models the `AssertionError` for an unknown platform
segment. -/
def check_arch (filename : String) (entries : List ZipEntry)
    (getArchs : String → Finset String) : Except String (Option String) :=
  match expected_archs_for_wheel filename with
  | .error e => .error e
  | .ok archs => .ok (checkArchGo archs getArchs (arch_files_build entries))

/-- The mismatch message the validate-side check raises `SystemExit` with. -/
def archMismatchMsgValidate (wheelBase : String) (f : String)
    (expected received : Finset String) : String :=
  "-> " ++ f ++ " has mismatched architectures\n" ++
    "---> you may be able to fix this with `ignore_wheels = " ++ wheelBase ++ "`\n" ++
    "---> expected " ++ String.intercalate ", " (expected.sort (fun a b => a ≤ b)) ++ "\n" ++
    "---> received " ++ String.intercalate ", " (received.sort (fun a b => a ≤ b)) ++ "\n"

/-- Loop of the validate-side architecture check: `SystemExit` (modelled as
`error`) as soon as a member's observed set differs (`archs_for_file !=
archs`, exact equality) from the expected set. -/
def validateArchGo (wheelBase : String) (archs : Finset String)
    (getArchs : String → Finset String) : List String → Except String Unit
  | [] => .ok ()
  | f :: rest =>
    let afs := getArchs f
    if afs ≠ archs then .error (archMismatchMsgValidate wheelBase f archs afs)
    else validateArchGo wheelBase archs getArchs rest

/-- The architecture-check phase of validate.py `_validate`: collect the
native members (no `tests` exclusion) and require each member's observed
architecture set to equal the wheel's expected set exactly. -/
def validate_arch_check (filename : String) (entries : List ZipEntry)
    (getArchs : String → Finset String) : Except String Unit :=
  match expected_archs_for_wheel filename with
  | .error e => .error e
  | .ok archs =>
    validateArchGo (basename filename) archs getArchs (arch_files_validate entries)

/-! ## Acquisition (`_download` and the acquire-or-build step of `main`, build.py) -/

/-- The two download strategies `_download` iterates over, in order: the
extra pip options `()` (architecture-targeted) then `("--platform=any",)`
(platform-agnostic). -/
def downloadStrategies : List (List String) := [[], ["--platform=any"]]

/-- Loop of `_download` over the strategies. `fetch opt` is the outcome of
`pip download` with extra options `opt` (`none`: non-zero exit, no file);
`verify` is `_check_arch` on the downloaded file. A candidate failing
verification is removed from disk (accumulated in the deleted list) and the
next strategy is tried; the first passing candidate is returned. -/
def downloadGo {C : Type} (fetch : List String → Option C) (verify : C → Option String) :
    List (List String) → List C → Option C × List C
  | [], deleted => (none, deleted.reverse)
  | opt :: rest, deleted =>
    match fetch opt with
    | none => downloadGo fetch verify rest deleted
    | some c =>
      match verify c with
      | some _ => downloadGo fetch verify rest (c :: deleted)
      | none => (some c, deleted.reverse)

/-- build.py `_download(package, python, dest)`: first component is the
accepted wheel (`none` when every strategy failed), second the candidates
that were downloaded, failed verification and were deleted. -/
def download {C : Type} (fetch : List String → Option C) (verify : C → Option String) :
    Option C × List C :=
  downloadGo fetch verify downloadStrategies []

/-- Outcome of the acquire-or-build step of build.py `main` for one
`(package, python)` pair that is not already satisfied. -/
inductive BuildOutcome (W : Type) where
  | downloaded (w : W)
  | built (w : W)
deriving DecidableEq, Repr

/-- build.py `main`, lines driving one unsatisfied pair: use the downloaded
wheel when `_download` returned one, otherwise invoke the Builder
(`_build`), whose result is recorded. -/
def resolve_acquire {W : Type} (downloadedWheel : Option W) (builtWheel : W) :
    BuildOutcome W :=
  match downloadedWheel with
  | some w => .downloaded w
  | none => .built builtWheel

/-! ## Verifier interpreter selection (validate.py) -/

/-- validate.py `PYTHONS`: the supported interpreter minor versions. -/
def PYTHONS_validate : List (Nat × Nat) := [(3, 8), (3, 9), (3, 10)]

/-- validate.py `_py_exe(major, minor)`. -/
def py_exe (p : Nat × Nat) : String :=
  "python" ++ toString p.1 ++ "." ++ toString p.2

/-- Python tuple comparison `a <= b` on `(major, minor)` pairs. -/
def verLe (a b : Nat × Nat) : Bool :=
  a.1 < b.1 || (a.1 = b.1 && a.2 ≤ b.2)

/-- Numeric value of a list of decimal digit characters. -/
def digitsToNat (cs : List Char) : Nat :=
  cs.foldl (fun n c => 10 * n + (c.toNat - 48)) 0

/-- validate.py `_parse_cp_tag(s)`: `int(s[2]), int(s[3:])`. `none` models
the `IndexError`/`ValueError` a malformed tag raises. -/
def parse_cp_tag (s : String) : Option (Nat × Nat) :=
  match s.data.drop 2 with
  | [] => none
  | c :: rest =>
    if c.isDigit && !rest.isEmpty && rest.all Char.isDigit then
      some (c.toNat - 48, digitsToNat rest)
    else none

/-- Python `set.update`: add each element, keeping the set semantics
(membership) while modelling the set as a deduplicated list. -/
def setUpdate (acc : List String) (xs : List String) : List String :=
  xs.foldl listAddUnique acc

/-- One iteration of the tag loop in `_pythons_to_check`. -/
def pythonsToCheckStep (acc : List String) (tag : Tag) : Except String (List String) :=
  if tag.abi = "abi3" && strStartsWith tag.interpreter "cp" then
    match parse_cp_tag tag.interpreter with
    | some min_py =>
      .ok (setUpdate acc ((PYTHONS_validate.filter fun py => verLe min_py py).map py_exe))
    | none => .error ("invalid cp tag: " ++ tag.interpreter)
  else if strStartsWith tag.interpreter "cp" then
    match parse_cp_tag tag.interpreter with
    | some py => .ok (listAddUnique acc (py_exe py))
    | none => .error ("invalid cp tag: " ++ tag.interpreter)
  else if tag.interpreter = "py2" then .ok acc
  else if tag.interpreter = "py3" then
    .ok (setUpdate acc (PYTHONS_validate.map py_exe))
  else .error ("unexpected tag: " ++ tag.interpreter)

/-- validate.py `_pythons_to_check(tags)`: fold the tag set (modelled as a
deduplicated list of tags) into the set of interpreter executables to
validate with, raising (`error`) on a malformed or unknown tag and when
the final set is empty; the result is returned sorted. -/
def pythons_to_check (tags : List Tag) : Except String (List String) :=
  match tags.foldlM pythonsToCheckStep [] with
  | .error e => .error e
  | .ok ret =>
    if ret = [] then .error "no interpreters found"
    else .ok (sortStrings ret)

/-- validate.py `Info`: the only manifest settings the Verifier reads. -/
structure Info where
  validate_extras : Option String
  validate_incorrect_missing_deps : List String
deriving DecidableEq, Repr

/-- Python `str.split()` with no argument: split on whitespace runs,
discarding empty pieces. -/
def pySplitWs (s : String) : List String :=
  (splitPredAux Char.isWhitespace s.data []).filter fun piece => piece ≠ ""

/-- Python `dict.get(k, default)` over an association list. -/
def dictGetD (dct : List (String × String)) (k d : String) : String :=
  ((dct.find? fun kv => kv.1 = k).map Prod.snd).getD d

/-- validate.py `Info.from_dct`. -/
def Info.from_dct (dct : List (String × String)) : Info :=
  { validate_extras :=
      let s := dictGetD dct "validate_extras" ""
      if s = "" then none else some s
    validate_incorrect_missing_deps := pySplitWs (dictGetD dct "validate_incorrect_missing_deps" "") }

/-- The interpreter set validate.py `main` actually validates a wheel with
(`for python in _pythons_to_check(wheel_tags): _validate(...)`): the
manifest entry's `Info` is passed on to `_validate` but plays no part in
selecting the interpreters. -/
def pythons_validated (wheelTags : List Tag) (info : Info) : Except String (List String) :=
  pythons_to_check wheelTags

/-- Modelled from the spec: "The result is intersected with any
manifest-declared version constraint and must be non-empty — an empty
result is a fatal configuration error."  validate.py contains no such
intersection; this definition follows the spec's words for comparison,
with the manifest-declared constraint modelled as the list of interpreter
executables it allows. -/
def pythons_to_check_spec (wheelTags : List Tag) (allowed : List String) :
    Except String (List String) :=
  match pythons_to_check wheelTags with
  | .error e => .error e
  | .ok r =>
    let r2 := r.filter fun p => p ∈ allowed
    if r2 = [] then .error "no interpreter can install this artifact" else .ok r2

/-! ## Availability (`Package.satisfied_by`, build.py) -/

/-- build.py `Package`: one manifest entry. The version type is a parameter
(`packaging.version.Version` compares by its own equality); the
`SpecifierSet` is kept as its raw string. -/
structure Package (V : Type) where
  name : String
  version : V
  apt_requires : List String
  brew_requires : List String
  custom_prebuild : List String
  likely_binary_ignore : List String
  python_versions : String
deriving DecidableEq, Repr

/-- Python `wheels.get(self.name, ())`: the version/tag-set pairs recorded
under a package name in the known-wheels dict. -/
def wheelsFor {V : Type} (wheels : List (String × List (V × Finset Tag))) (n : String) :
    List (V × Finset Tag) :=
  ((wheels.find? fun kv => kv.1 = n).map Prod.snd).getD []

/-- build.py `Package.satisfied_by(wheels, tags)`: some known wheel under
exactly this package's name has exactly the pinned version and a non-empty
tag-set intersection with the interpreter's tags. -/
def Package.satisfied_by {V : Type} [DecidableEq V] (p : Package V)
    (wheels : List (String × List (V × Finset Tag))) (tags : Finset Tag) : Bool :=
  (wheelsFor wheels p.name).any fun vw =>
    decide (vw.1 = p.version) && decide ((vw.2 ∩ tags).Nonempty)

/-! ## Native-binary heuristic (`_likely_binary`, `_produced_binary`, build.py) -/

/-- build.py `BINARY_EXTS`. -/
def BINARY_EXTS : List String :=
  [".c", ".cc", ".cpp", ".cxx", ".pxd", ".pxi", ".pyx", ".go", ".rs"]

/-- The recognized binary-source extensions appearing in the sdist member
list, outside `test`/`tests` directories and the ignore list (the `ret`
set of `_likely_binary`, modelled as the list of contributing members'
extensions). -/
def likelyBinaryExts (names : List String) (likely_binary_ignore : List String) :
    List String :=
  names.filterMap fun name =>
    if containsStr name "/test/" || containsStr name "/tests/" then none
    else if name ∈ likely_binary_ignore then none
    else
      let ext := (splitext name).2
      if ext ∈ BINARY_EXTS then some ext else none

/-- build.py `_likely_binary(sdist, likely_binary_ignore)`, over the sdist's
member names and the concatenated contents of its `*/setup.py` members:
the reason a native build is expected, or `none`. -/
def likely_binary (names : List String) (likely_binary_ignore : List String)
    (setup_py_contents : String) : Option String :=
  let ret := likelyBinaryExts names likely_binary_ignore
  if ret ≠ [] then
    some ("sdist contains files with these extensions: " ++
      String.intercalate ", " (sortStrings (ret.foldl listAddUnique [])))
  else if containsStr setup_py_contents "cffi_modules" then
    some "sdist setup.py has `cffi_modules`"
  else none

/-- build.py `_produced_binary(wheel)`: the wheel archive has a member
ending in `.so`. -/
def produced_binary (wheelNames : List String) : Bool :=
  wheelNames.any fun name => strEndsWith name ".so"

/-- The expected-binary gate of build.py `_build`: `SystemExit` (modelled as
`some message`) when a binary was expected but the produced wheel contains
no native-extension member. -/
def build_binary_check (name version : String) (sdistNames ignore : List String)
    (setupPy : String) (wheelNames : List String) : Option String :=
  match likely_binary sdistNames ignore setupPy with
  | none => none
  | some reason =>
    if produced_binary wheelNames then none
    else some (name ++ "==" ++ version ++ " expected binary as " ++ reason)

/-! ## Top-level imports (`_top_imports` and the import loop, validate.py) -/

/-- Python `str.splitlines()` for newline-separated text. -/
def pySplitLines (s : String) : List String :=
  if s = "" then []
  else
    let l := splitOnChar s '\n'
    if strEndsWith s "\n" then l.dropLast else l

/-- RECORD parsing of `_top_imports`: package directories via their
`__init__.py`, top-level `.so`/`.py` members by their name before the
first dot. -/
def recordImports (contents : String) : List String :=
  (pySplitLines contents).foldl
    (fun acc line =>
      let fname := (splitOnChar line ',').headD ""
      if strEndsWith fname "/__init__.py" then
        listAddUnique acc ((splitOnChar fname '/').headD "")
      else if !containsStr fname "/" && (strEndsWith fname ".so" || strEndsWith fname ".py") then
        listAddUnique acc ((splitOnChar fname '.').headD "")
      else acc)
    []

/-- Python dict-comprehension lookup `{os.path.basename(name): name ...}`:
the last archive member whose path matches `DIST_INFO_RE` and whose
basename is `k` wins. -/
def distInfoFind (entries : List ZipEntry) (k : String) : Option ZipEntry :=
  ((entries.filter fun e => distInfoMatch e.name).reverse).find? fun e =>
    basename e.name = k

/-- validate.py `_top_imports(whl)`: the `top_level.txt` lines when that
dist-info member exists, else the RECORD-derived names, else
`NotImplementedError` (modelled as `error`). -/
def top_imports (entries : List ZipEntry) : Except String (List String) :=
  match distInfoFind entries "top_level.txt" with
  | some e => .ok (pySplitLines e.contents)
  | none =>
    match distInfoFind entries "RECORD" with
    | some e => .ok (recordImports e.contents)
    | none => .error "need top_level.txt or RECORD"

/-- The import phase of validate.py `_validate`: every name `_top_imports`
returns is imported (`for s in _top_imports(filename): __import__(s)`);
no manifest setting is consulted. -/
def validate_imports (entries : List ZipEntry) : Except String (List String) :=
  top_imports entries

/-! ## Tag universe (`_supported_tags`, build.py) -/

/-- Modelled from the spec: build.py calls `packaging.tags.cpython_tags`,
whose source is outside this repository ("computes CPython-specific ...
tags for the host, across every host-reported platform identifier").
Every produced tag pairs a CPython interpreter/ABI combination (including
`abi3` down-versions) with one of the supplied platforms. -/
def cpython_tags_model (version : Nat × Nat) (platforms : List String) : List Tag :=
  let interp := "cp" ++ toString version.1 ++ toString version.2
  let exact := [interp, "abi3", "none"].flatMap fun abi =>
    platforms.map fun p => Tag.mk interp abi p
  let older := ((List.range version.2).filter fun m => 2 ≤ m).reverse.flatMap fun m =>
    platforms.map fun p => Tag.mk ("cp" ++ toString version.1 ++ toString m) "abi3" p
  exact ++ older

/-- Modelled from the spec: build.py calls `packaging.tags.compatible_tags`,
whose source is outside this repository ("platform-compatible tags ...
across every host-reported platform identifier").  Every produced tag
pairs a source-compatible `py*` interpreter with one of the supplied
platforms or with the literal platform `"any"`. -/
def compatible_tags_model (version : Nat × Nat) (platforms : List String) : List Tag :=
  let interps := ("py" ++ toString version.1 ++ toString version.2) ::
    ("py" ++ toString version.1) ::
    ((List.range version.2).reverse.map fun m => "py" ++ toString version.1 ++ toString m)
  (interps.flatMap fun i => platforms.map fun p => Tag.mk i "none" p) ++
    interps.map fun i => Tag.mk i "none" "any"

/-- build.py `_supported_tags(version)`: generate CPython and compatible
tags over the host's reported platform strings, after dropping every
generic `linux_*` platform. The host's `platform_tags()` output is the
`hostPlatforms` parameter; the returned frozenset is modelled as a list. -/
def supported_tags (version : Nat × Nat) (hostPlatforms : List String) : List Tag :=
  let platforms := hostPlatforms.filter fun p => !(strStartsWith p "linux_")
  cpython_tags_model version platforms ++ compatible_tags_model version platforms

/-! ## Scoped system-dependency installation (`_apt_install`, `_brew_install`) -/

/-- Host state mutated by a scoped dependency install: the package-manager
installed set and the process environment (as `os.environ`'s dict). -/
structure SysState where
  installed : Finset String
  env : List (String × String)
deriving DecidableEq

/-- build.py `_brew_install(packages)` as a state transformer.
`installStep` is the effect of `brew install` on the installed set,
`pkgEnvUpdate` the `CPPFLAGS`/`LDFLAGS`/`PKG_CONFIG_PATH` update derived
from the brew prefixes, and `body` the enclosed build, which may itself
mutate the state and may fail (`some err`).  The `finally` block restores
the snapshotted environment and uninstalls exactly
`installed_now - installed_before`, in both the success and failure case. -/
def brew_install_scoped (s0 : SysState)
    (installStep : Finset String → Finset String)
    (pkgEnvUpdate : List (String × String) → List (String × String))
    (body : SysState → SysState × Option String) : SysState × Option String :=
  let installed_before := s0.installed
  let orig := s0.env
  let s2 : SysState := ⟨installStep s0.installed, pkgEnvUpdate s0.env⟩
  let r := body s2
  let newly_installed := r.1.installed \ installed_before
  (⟨r.1.installed \ newly_installed, orig⟩, r.2)

/-- build.py `_apt_install(packages)` as a state transformer: same
before/after snapshot discipline as brew, with no environment
manipulation of its own. -/
def apt_install_scoped (s0 : SysState)
    (installStep : Finset String → Finset String)
    (body : SysState → SysState × Option String) : SysState × Option String :=
  let installed_before := s0.installed
  let s1 : SysState := ⟨installStep s0.installed, s0.env⟩
  let r := body s1
  let newly_installed := r.1.installed \ installed_before
  (⟨r.1.installed \ newly_installed, r.1.env⟩, r.2)

/-! ## Helper lemmas -/

theorem cpython_tags_model_platform {v : Nat × Nat} {pl : List String} {t : Tag}
    (h : t ∈ cpython_tags_model v pl) : t.platform ∈ pl := by
  unfold cpython_tags_model at h
  simp only [List.mem_append, List.mem_flatMap, List.mem_map] at h
  rcases h with ⟨abi, _, p, hp, rfl⟩ | ⟨m, _, p, hp, rfl⟩ <;> exact hp

theorem compatible_tags_model_platform {v : Nat × Nat} {pl : List String} {t : Tag}
    (h : t ∈ compatible_tags_model v pl) : t.platform ∈ pl ∨ t.platform = "any" := by
  unfold compatible_tags_model at h
  simp only [List.mem_append, List.mem_flatMap, List.mem_map] at h
  rcases h with ⟨i, _, p, hp, rfl⟩ | ⟨i, _, rfl⟩
  · exact Or.inl hp
  · exact Or.inr rfl

theorem arch_files_build_filter_tests (entries : List ZipEntry) :
    arch_files_build (entries.filter fun e => !(containsStr e.name "/tests/")) =
      arch_files_build entries := by
  induction entries with
  | nil => rfl
  | cons e t ih =>
    by_cases h : containsStr e.name "/tests/" = true
    · rw [List.filter_cons, if_neg (by simp [h])]
      rw [ih]
      show arch_files_build t = arch_files_build (e :: t)
      unfold arch_files_build
      rw [List.filterMap_cons]
      simp [h]
    · rw [List.filter_cons, if_pos (by simp [Bool.eq_false_iff.2 h])]
      show arch_files_build (e :: List.filter _ t) = arch_files_build (e :: t)
      unfold arch_files_build
      rw [List.filterMap_cons, List.filterMap_cons]
      have ht : arch_files_build (t.filter fun e => !(containsStr e.name "/tests/")) =
          arch_files_build t := ih
      unfold arch_files_build at ht
      rw [ht]

/-! ## Claim theorems -/

/-- Claim C8: for every requested interpreter version and every list of
host-reported platform strings, the computed tag universe
(`_supported_tags`) never contains a tag whose platform component begins
with the bare generic `"linux_"`. -/
theorem supported_tags_no_generic_linux (version : Nat × Nat)
    (hostPlatforms : List String) (t : Tag)
    (ht : t ∈ supported_tags version hostPlatforms) :
    strStartsWith t.platform "linux_" = false := by
  unfold supported_tags at ht
  rcases List.mem_append.1 ht with h | h
  · have hp := cpython_tags_model_platform h
    have := List.mem_filter.1 hp
    simpa using this.2
  · rcases compatible_tags_model_platform h with hp | hp
    · have := List.mem_filter.1 hp
      simpa using this.2
    · rw [hp]; decide

/-- Witness for C8 at a concrete host with a generic `linux_x86_64`
platform string. -/
theorem supported_tags_no_generic_linux_witness :
    strStartsWith (Tag.mk "cp39" "cp39" "manylinux_2_28_x86_64").platform "linux_" = false :=
  supported_tags_no_generic_linux (3, 9) ["manylinux_2_28_x86_64", "linux_x86_64"]
    (Tag.mk "cp39" "cp39" "manylinux_2_28_x86_64") (by decide)

/-- Claim C9: scoped system-dependency installation (`_brew_install` on
Darwin, `_apt_install` on Linux) snapshots the installed set before
installing; on teardown — run whether the enclosed body succeeded or
failed, with the body's error propagated — exactly the newly-installed
delta (after-set minus before-set) is removed, so a package installed
before the step that is still present is never removed, and the
environment variables the brew step modified are restored to their prior
values. -/
theorem scoped_install_teardown (s0 : SysState)
    (installStep : Finset String → Finset String)
    (pkgEnvUpdate : List (String × String) → List (String × String))
    (body : SysState → SysState × Option String) :
    (brew_install_scoped s0 installStep pkgEnvUpdate body).1.env = s0.env ∧
    (brew_install_scoped s0 installStep pkgEnvUpdate body).2 =
      (body ⟨installStep s0.installed, pkgEnvUpdate s0.env⟩).2 ∧
    (∀ p, p ∈ s0.installed →
      p ∈ (body ⟨installStep s0.installed, pkgEnvUpdate s0.env⟩).1.installed →
      p ∈ (brew_install_scoped s0 installStep pkgEnvUpdate body).1.installed) ∧
    (body ⟨installStep s0.installed, pkgEnvUpdate s0.env⟩).1.installed \
        (brew_install_scoped s0 installStep pkgEnvUpdate body).1.installed =
      (body ⟨installStep s0.installed, pkgEnvUpdate s0.env⟩).1.installed \ s0.installed ∧
    (apt_install_scoped s0 installStep body).2 =
      (body ⟨installStep s0.installed, s0.env⟩).2 ∧
    (∀ p, p ∈ s0.installed →
      p ∈ (body ⟨installStep s0.installed, s0.env⟩).1.installed →
      p ∈ (apt_install_scoped s0 installStep body).1.installed) ∧
    (body ⟨installStep s0.installed, s0.env⟩).1.installed \
        (apt_install_scoped s0 installStep body).1.installed =
      (body ⟨installStep s0.installed, s0.env⟩).1.installed \ s0.installed := by
  refine ⟨rfl, rfl, fun p hp hafter => ?_, ?_, rfl, fun p hp hafter => ?_, ?_⟩ <;>
    simp only [brew_install_scoped, apt_install_scoped]
  · simp only [Finset.mem_sdiff, Finset.mem_sdiff]
    exact ⟨hafter, fun hcon => hcon.2 hp⟩
  · ext x
    simp only [Finset.mem_sdiff, Finset.mem_sdiff]
    tauto
  · simp only [Finset.mem_sdiff, Finset.mem_sdiff]
    exact ⟨hafter, fun hcon => hcon.2 hp⟩
  · ext x
    simp only [Finset.mem_sdiff, Finset.mem_sdiff]
    tauto

/-- Witness for C9: a pre-existing package (`git`) survives teardown of a
failing brew-scoped body that installed `ssl` and `tmp`. -/
theorem scoped_install_teardown_witness :
    "git" ∈ (brew_install_scoped ⟨{"git"}, [("A", "1")]⟩ (insert "ssl")
      (fun e => ("B", "2") :: e)
      (fun s => (⟨insert "tmp" s.installed, s.env⟩, some "boom"))).1.installed :=
  (scoped_install_teardown ⟨{"git"}, [("A", "1")]⟩ (insert "ssl")
    (fun e => ("B", "2") :: e)
    (fun s => (⟨insert "tmp" s.installed, s.env⟩, some "boom"))).2.2.1
    "git" (by decide) (by decide)

/-- Claim C5: `Package.satisfied_by` is true iff some known wheel recorded
under exactly the package's name has exactly the pinned version and a
non-empty tag-set intersection with the interpreter's tags; in particular
it is false when every recorded wheel's version differs. -/
theorem satisfied_by_iff {V : Type} [DecidableEq V] (p : Package V)
    (wheels : List (String × List (V × Finset Tag))) (tags : Finset Tag) :
    (p.satisfied_by wheels tags = true ↔
      ∃ vw ∈ wheelsFor wheels p.name, vw.1 = p.version ∧ (vw.2 ∩ tags).Nonempty) ∧
    ((∀ vw ∈ wheelsFor wheels p.name, vw.1 ≠ p.version) →
      p.satisfied_by wheels tags = false) := by
  have hiff : p.satisfied_by wheels tags = true ↔
      ∃ vw ∈ wheelsFor wheels p.name, vw.1 = p.version ∧ (vw.2 ∩ tags).Nonempty := by
    simp [Package.satisfied_by, List.any_eq_true]
  refine ⟨hiff, fun h => ?_⟩
  cases hb : p.satisfied_by wheels tags
  · rfl
  · obtain ⟨vw, hvw, hv, _⟩ := hiff.mp hb
    exact absurd hv (h vw hvw)

/-- Witness for C5: with the only recorded wheel at version `2.0`, a
package pinned to `1.0` is not satisfied, despite identical name and
tags. -/
theorem satisfied_by_iff_witness :
    Package.satisfied_by (V := String) ⟨"foo", "1.0", [], [], [], [], ""⟩
      [("foo", [("2.0", ({Tag.mk "py3" "none" "any"} : Finset Tag))])]
      {Tag.mk "py3" "none" "any"} = false :=
  (satisfied_by_iff ⟨"foo", "1.0", [], [], [], [], ""⟩
    [("foo", [("2.0", ({Tag.mk "py3" "none" "any"} : Finset Tag))])]
    {Tag.mk "py3" "none" "any"}).2 (by decide)

/-- Claim C10: the acquisition/build-side member collection (`_check_arch`)
excludes every archive member whose path contains `/tests/` — so such a
member can never cause a download or build to be rejected, and
`_check_arch`'s result is unchanged by deleting those members — while the
Verifier's separate collection includes them. -/
theorem check_arch_tests_excluded :
    (∀ (entries : List ZipEntry) (n : String), containsStr n "/tests/" = true →
      n ∉ arch_files_build entries) ∧
    (∀ (filename : String) (entries : List ZipEntry) (getArchs : String → Finset String),
      check_arch filename entries getArchs =
        check_arch filename (entries.filter fun e => !(containsStr e.name "/tests/"))
          getArchs) ∧
    arch_files_validate [⟨"pkg/tests/lib.so", "E"⟩] = ["pkg/tests/lib.so"] := by
  refine ⟨fun entries n hn hmem => ?_, fun filename entries getArchs => ?_, by decide⟩
  · rw [arch_files_build, List.mem_filterMap] at hmem
    obtain ⟨e, he, hfe⟩ := hmem
    by_cases h : containsStr e.name "/tests/" = true
    · rw [if_pos h] at hfe
      exact Option.noConfusion hfe
    · rw [if_neg h] at hfe
      split at hfe
      · injection hfe with hne
        exact h (hne ▸ hn)
      · split at hfe
        · injection hfe with hne
          exact h (hne ▸ hn)
        · exact Option.noConfusion hfe
  · unfold check_arch
    rw [arch_files_build_filter_tests]

/-- Witness for C10: a shared library under a tests directory is not
collected by the build-side check. -/
theorem check_arch_tests_excluded_witness :
    "a/tests/b.so" ∉ arch_files_build [⟨"a/tests/b.so", "E"⟩] :=
  check_arch_tests_excluded.1 [⟨"a/tests/b.so", "E"⟩] "a/tests/b.so" (by decide)

/-- Claim C2: `_download` tries the architecture-targeted strategy first
and the platform-agnostic (`--platform=any`) strategy second, accepts the
first downloaded candidate passing architecture verification, deletes
(and never retries) a candidate failing verification before moving on,
and when both strategies fail returns nothing, upon which `main` invokes
the Builder — a verification failure during acquisition is never by
itself fatal. -/
theorem download_strategy_semantics (fetch : List String → Option String)
    (verify : String → Option String) (builtWheel : String) :
    (∀ c, fetch [] = some c → verify c = none →
      download fetch verify = (some c, [])) ∧
    (∀ c c2, fetch [] = some c → verify c ≠ none →
      fetch ["--platform=any"] = some c2 → verify c2 = none →
      download fetch verify = (some c2, [c])) ∧
    (∀ c2, fetch [] = none → fetch ["--platform=any"] = some c2 → verify c2 = none →
      download fetch verify = (some c2, [])) ∧
    ((∀ c, fetch [] = some c → verify c ≠ none) →
      (∀ c, fetch ["--platform=any"] = some c → verify c ≠ none) →
      (download fetch verify).1 = none ∧
        resolve_acquire (download fetch verify).1 builtWheel =
          BuildOutcome.built builtWheel) := by
  refine ⟨fun c h1 h2 => ?_, fun c c2 h1 h2 h3 h4 => ?_, fun c2 h1 h2 h3 => ?_,
    fun h1 h2 => ?_⟩
  · simp [download, downloadStrategies, downloadGo, h1, h2]
  · obtain ⟨r, hr⟩ := Option.ne_none_iff_exists.1 h2
    simp [download, downloadStrategies, downloadGo, h1, h3, h4, ← hr]
  · simp [download, downloadStrategies, downloadGo, h1, h2, h3]
  · have hfst : (download fetch verify).1 = none := by
      rcases ha : fetch [] with _ | c
      · rcases hb : fetch ["--platform=any"] with _ | c2
        · simp [download, downloadStrategies, downloadGo, ha, hb]
        · obtain ⟨r, hr⟩ := Option.ne_none_iff_exists.1 (h2 c2 hb)
          simp [download, downloadStrategies, downloadGo, ha, hb, ← hr]
      · obtain ⟨r, hr⟩ := Option.ne_none_iff_exists.1 (h1 c ha)
        rcases hb : fetch ["--platform=any"] with _ | c2
        · simp [download, downloadStrategies, downloadGo, ha, hb, ← hr]
        · obtain ⟨r2, hr2⟩ := Option.ne_none_iff_exists.1 (h2 c2 hb)
          simp [download, downloadStrategies, downloadGo, ha, hb, ← hr, ← hr2]
    exact ⟨hfst, by rw [hfst]; rfl⟩

/-- Witness for C2: the targeted candidate fails verification and is
deleted; the platform-agnostic candidate passes and is accepted. -/
theorem download_strategy_semantics_witness :
    download (fun opt => if opt = [] then some "w-arch" else some "w-any")
      (fun c => if c = "w-arch" then some "bad" else none) =
      (some "w-any", ["w-arch"]) :=
  (download_strategy_semantics
    (fun opt => if opt = [] then some "w-arch" else some "w-any")
    (fun c => if c = "w-arch" then some "bad" else none) "b").2.1
    "w-arch" "w-any" (by decide) (by decide) (by decide) (by decide)

theorem likelyBinaryExts_ne_nil_iff (names ignore : List String) :
    likelyBinaryExts names ignore ≠ [] ↔
      ∃ n ∈ names, containsStr n "/test/" = false ∧ containsStr n "/tests/" = false ∧
        n ∉ ignore ∧ (splitext n).2 ∈ BINARY_EXTS := by
  constructor
  · intro h
    obtain ⟨b, hb⟩ := List.exists_mem_of_ne_nil _ h
    rw [likelyBinaryExts, List.mem_filterMap] at hb
    obtain ⟨n, hn, hfn⟩ := hb
    refine ⟨n, hn, ?_⟩
    by_cases h1 : (containsStr n "/test/" || containsStr n "/tests/") = true
    · rw [if_pos h1] at hfn
      exact Option.noConfusion hfn
    · rw [if_neg h1] at hfn
      by_cases h2 : n ∈ ignore
      · rw [if_pos h2] at hfn
        exact Option.noConfusion hfn
      · rw [if_neg h2] at hfn
        by_cases h3 : (splitext n).2 ∈ BINARY_EXTS
        · simp only [Bool.or_eq_true, not_or, Bool.not_eq_true] at h1
          exact ⟨h1.1, h1.2, h2, h3⟩
        · rw [if_neg h3] at hfn
          exact Option.noConfusion hfn
  · rintro ⟨n, hn, ha, hb, hc, hd⟩ hnil
    have hmem : (splitext n).2 ∈ likelyBinaryExts names ignore := by
      rw [likelyBinaryExts, List.mem_filterMap]
      refine ⟨n, hn, ?_⟩
      rw [if_neg (by simp [ha, hb]), if_neg hc, if_pos hd]
    rw [hnil] at hmem
    exact absurd hmem (List.not_mem_nil _)

theorem likely_binary_ne_none_iff (names ignore : List String) (setupPy : String) :
    likely_binary names ignore setupPy ≠ none ↔
      (likelyBinaryExts names ignore ≠ [] ∨ containsStr setupPy "cffi_modules" = true) := by
  by_cases h : likelyBinaryExts names ignore = []
  · by_cases h2 : containsStr setupPy "cffi_modules" = true <;> simp [likely_binary, h, h2]
  · simp [likely_binary, h]

/-- Claim C6: when the sdist heuristically indicates a native extension
(recognized binary-source extensions outside test directories and off the
ignore list, or the `cffi_modules` marker in its setup.py) and the
produced wheel has no native-extension member, `_build` fails fatally
with a message naming the package, version, and the reason. -/
theorem build_expected_binary_check (name version : String)
    (sdistNames ignore : List String) (setupPy : String) (wheelNames : List String) :
    (build_binary_check name version sdistNames ignore setupPy wheelNames ≠ none ↔
      (likely_binary sdistNames ignore setupPy ≠ none ∧
        produced_binary wheelNames = false)) ∧
    (likely_binary sdistNames ignore setupPy ≠ none ↔
      ((∃ n ∈ sdistNames, containsStr n "/test/" = false ∧
          containsStr n "/tests/" = false ∧ n ∉ ignore ∧
          (splitext n).2 ∈ BINARY_EXTS) ∨
        containsStr setupPy "cffi_modules" = true)) ∧
    (∀ msg, build_binary_check name version sdistNames ignore setupPy wheelNames = some msg →
      ∃ reason, likely_binary sdistNames ignore setupPy = some reason ∧
        msg = name ++ "==" ++ version ++ " expected binary as " ++ reason) := by
  refine ⟨?_, ?_, fun msg hmsg => ?_⟩
  · rcases hl : likely_binary sdistNames ignore setupPy with _ | r
    · simp [build_binary_check, hl]
    · cases hp : produced_binary wheelNames <;> simp [build_binary_check, hl, hp]
  · rw [likely_binary_ne_none_iff, likelyBinaryExts_ne_nil_iff]
  · rcases hl : likely_binary sdistNames ignore setupPy with _ | r
    · rw [build_binary_check, hl] at hmsg
      exact Option.noConfusion hmsg
    · rw [build_binary_check, hl] at hmsg
      cases hp : produced_binary wheelNames
      · simp only [hp, Bool.false_eq_true, if_false, Option.some.injEq] at hmsg
        exact ⟨r, rfl, hmsg.symm⟩
      · simp [hp] at hmsg

/-- Witness for C6: a `.c` source outside tests with a pure-Python wheel
produces the fatal message naming `bar==2.0` and the reason. -/
theorem build_expected_binary_check_witness :
    ∃ reason, likely_binary ["bar-2.0/x.c"] [] "" = some reason ∧
      "bar==2.0 expected binary as sdist contains files with these extensions: .c" =
        "bar" ++ "==" ++ "2.0" ++ " expected binary as " ++ reason :=
  (build_expected_binary_check "bar" "2.0" ["bar-2.0/x.c"] [] "" ["bar/y.py"]).2.2
    "bar==2.0 expected binary as sdist contains files with these extensions: .c"
    (by decide)

theorem checkArchGo_eq_none_iff (archs : Finset String) (g : String → Finset String)
    (l : List String) :
    checkArchGo archs g l = none ↔ ∀ f ∈ l, archs ⊆ g f := by
  induction l with
  | nil => simp [checkArchGo]
  | cons f rest ih =>
    rw [checkArchGo]
    by_cases h : (archs ∩ g f) ≠ archs
    · rw [if_pos h]
      constructor
      · intro hc
        exact Option.noConfusion hc
      · intro hall
        exact absurd (Finset.inter_eq_left.2 (hall f (List.mem_cons_self f rest))) h
    · rw [if_neg h, ih]
      rw [not_not, Finset.inter_eq_left] at h
      constructor
      · intro hall f2 hf2
        rcases List.mem_cons.1 hf2 with rfl | hf2
        · exact h
        · exact hall f2 hf2
      · intro hall f2 hf2
        exact hall f2 (List.mem_cons_of_mem f hf2)

theorem validateArchGo_eq_ok_iff (wb : String) (archs : Finset String)
    (g : String → Finset String) (l : List String) :
    validateArchGo wb archs g l = .ok () ↔ ∀ f ∈ l, g f = archs := by
  induction l with
  | nil => simp [validateArchGo]
  | cons f rest ih =>
    rw [validateArchGo]
    by_cases h : g f ≠ archs
    · rw [if_pos h]
      constructor
      · intro hc
        exact Except.noConfusion hc
      · intro hall
        exact absurd (hall f (List.mem_cons_self f rest)) h
    · rw [if_neg h, ih]
      rw [not_not] at h
      constructor
      · intro hall f2 hf2
        rcases List.mem_cons.1 hf2 with rfl | hf2
        · exact h
        · exact hall f2 hf2
      · intro hall f2 hf2
        exact hall f2 (List.mem_cons_of_mem f hf2)

/-- Claim C1, amended: over the collected native members, the
acquisition/build check (`_check_arch`) fails exactly when some member's
observed architecture set does not cover the wheel's expected set — a
strict superset passes — while the Verifier's check (validate.py)
requires the observed set to equal the expected set exactly, so a strict
superset fails there. -/
theorem arch_check_superset_semantics (filename : String) (entries : List ZipEntry)
    (getArchs : String → Finset String) (archs : Finset String)
    (h : expected_archs_for_wheel filename = .ok archs) :
    (check_arch filename entries getArchs = .ok none ↔
      ∀ f ∈ arch_files_build entries, archs ⊆ getArchs f) ∧
    (validate_arch_check filename entries getArchs = .ok () ↔
      ∀ f ∈ arch_files_validate entries, getArchs f = archs) := by
  rw [check_arch, validate_arch_check, h]
  simp [checkArchGo_eq_none_iff, validateArchGo_eq_ok_iff]

/-- Witness for C1's amended theorem at a concrete wheel and oracle. -/
theorem arch_check_superset_semantics_witness :
    (check_arch "foo-1.0-cp38-cp38-manylinux2014_x86_64.whl" [⟨"foo/lib.so", "E"⟩]
        (fun _ => {"x86_64"}) = .ok none ↔
      ∀ f ∈ arch_files_build [⟨"foo/lib.so", "E"⟩],
        ({"x86_64"} : Finset String) ⊆ (fun _ => ({"x86_64"} : Finset String)) f) :=
  (arch_check_superset_semantics "foo-1.0-cp38-cp38-manylinux2014_x86_64.whl"
    [⟨"foo/lib.so", "E"⟩] (fun _ => {"x86_64"}) {"x86_64"} (by decide)).1

/-- Counterexample to claim C1 as stated: for the wheel
`foo-1.0-cp38-cp38-manylinux2014_x86_64.whl` (expected set `{x86_64}`)
with one shared-library member observed as `{arm64, x86_64}` — a strict
superset of the expected set — the Verifier's architecture verification
step (validate.py, also cited by the claim) fails, although the claim
says such a member passes; the build-side `_check_arch` does pass it. -/
theorem validate_arch_strict_superset_rejected :
    expected_archs_for_wheel "foo-1.0-cp38-cp38-manylinux2014_x86_64.whl" =
      .ok {"x86_64"} ∧
    ({"x86_64"} : Finset String) ⊂ {"arm64", "x86_64"} ∧
    exOk (validate_arch_check "foo-1.0-cp38-cp38-manylinux2014_x86_64.whl"
      [⟨"foo/lib.so", "E"⟩] (fun _ => {"arm64", "x86_64"})) = false ∧
    check_arch "foo-1.0-cp38-cp38-manylinux2014_x86_64.whl"
      [⟨"foo/lib.so", "E"⟩] (fun _ => {"arm64", "x86_64"}) = .ok none :=
  ⟨by decide, by decide, by decide, by decide⟩

theorem mem_listAddUnique {l : List String} {x p : String} :
    p ∈ listAddUnique l x ↔ p ∈ l ∨ p = x := by
  rw [listAddUnique]
  by_cases h : x ∈ l
  · rw [if_pos h]
    constructor
    · exact Or.inl
    · rintro (hp | rfl)
      · exact hp
      · exact h
  · rw [if_neg h]
    simp [List.mem_append]

theorem mem_setUpdate {xs : List String} :
    ∀ {acc : List String} {p : String}, p ∈ setUpdate acc xs ↔ p ∈ acc ∨ p ∈ xs := by
  induction xs with
  | nil => intro acc p; simp [setUpdate]
  | cons x t ih =>
    intro acc p
    show p ∈ setUpdate (listAddUnique acc x) t ↔ _
    rw [ih, mem_listAddUnique]
    simp only [List.mem_cons]
    tauto

theorem mem_insertSorted {x p : String} {l : List String} :
    p ∈ insertSorted x l ↔ p = x ∨ p ∈ l := by
  induction l with
  | nil => simp [insertSorted]
  | cons y t ih =>
    rw [insertSorted]
    by_cases h : strLe x y = true
    · rw [if_pos h]
      simp [List.mem_cons]
    · rw [if_neg h]
      simp only [List.mem_cons, ih]
      tauto

theorem mem_sortStrings {l : List String} {p : String} :
    p ∈ sortStrings l ↔ p ∈ l := by
  induction l with
  | nil => simp [sortStrings]
  | cons x t ih =>
    rw [sortStrings, List.foldr_cons, mem_insertSorted]
    rw [sortStrings] at ih
    rw [ih]
    simp [List.mem_cons]

/-- The per-tag contribution described by claim C3: an exact CPython tag
(`cpXY` with a non-`abi3` ABI) contributes exactly interpreter `X.Y`; a
`cpXY` tag with `abi3` ABI contributes every supported interpreter at or
above `(X, Y)`; a `py3` tag contributes every supported interpreter; a
`py2` tag contributes nothing. -/
def contributesSpec (tag : Tag) (p : String) : Prop :=
  (strStartsWith tag.interpreter "cp" = true ∧ tag.abi ≠ "abi3" ∧
    ∃ v, parse_cp_tag tag.interpreter = some v ∧ p = py_exe v) ∨
  (strStartsWith tag.interpreter "cp" = true ∧ tag.abi = "abi3" ∧
    ∃ v py, parse_cp_tag tag.interpreter = some v ∧ py ∈ PYTHONS_validate ∧
      verLe v py = true ∧ p = py_exe py) ∨
  (tag.interpreter = "py3" ∧ ∃ py, py ∈ PYTHONS_validate ∧ p = py_exe py)

theorem pythonsToCheckStep_mem (acc : List String) (t : Tag) (acc' : List String)
    (h : pythonsToCheckStep acc t = .ok acc') (p : String) :
    p ∈ acc' ↔ p ∈ acc ∨ contributesSpec t p := by
  unfold pythonsToCheckStep at h
  split at h
  case isTrue h1 =>
    rw [Bool.and_eq_true, decide_eq_true_eq] at h1
    obtain ⟨habi, hcp⟩ := h1
    split at h
    case h_1 min_py hp =>
      injection h with h
      subst h
      rw [mem_setUpdate]
      constructor
      · rintro (hacc | hmem)
        · exact Or.inl hacc
        · rw [List.mem_map] at hmem
          obtain ⟨py, hpy, rfl⟩ := hmem
          rw [List.mem_filter] at hpy
          exact Or.inr (Or.inr (Or.inl ⟨hcp, habi, min_py, py, hp, hpy.1, hpy.2, rfl⟩))
      · rintro (hacc | hcontrib)
        · exact Or.inl hacc
        · right
          rcases hcontrib with ⟨_, hne, _⟩ | ⟨_, _, v2, py, hp2, hpymem, hvle, rfl⟩ |
            ⟨hpy3, _⟩
          · exact absurd habi hne
          · rw [hp] at hp2
            injection hp2 with hveq
            subst hveq
            rw [List.mem_map]
            exact ⟨py, List.mem_filter.2 ⟨hpymem, hvle⟩, rfl⟩
          · rw [hpy3] at hcp
            exact absurd hcp (by decide)
    case h_2 hp => exact Except.noConfusion h
  case isFalse h1 =>
    split at h
    case isTrue h2 =>
      split at h
      case h_1 v hp =>
        injection h with h
        subst h
        rw [mem_listAddUnique]
        have habi : t.abi ≠ "abi3" := by
          intro hc
          exact h1 (by rw [Bool.and_eq_true, decide_eq_true_eq]; exact ⟨hc, h2⟩)
        constructor
        · rintro (hacc | rfl)
          · exact Or.inl hacc
          · exact Or.inr (Or.inl ⟨h2, habi, v, hp, rfl⟩)
        · rintro (hacc | hcontrib)
          · exact Or.inl hacc
          · right
            rcases hcontrib with ⟨_, _, v2, hp2, rfl⟩ | ⟨_, habi2, _⟩ | ⟨hpy3, _⟩
            · rw [hp] at hp2
              injection hp2 with hveq
              rw [hveq]
            · exact absurd habi2 habi
            · rw [hpy3] at h2
              exact absurd h2 (by decide)
      case h_2 hp => exact Except.noConfusion h
    case isFalse h2 =>
      split at h
      case isTrue h3 =>
        injection h with h
        subst h
        constructor
        · exact Or.inl
        · rintro (hacc | hcontrib)
          · exact hacc
          · exfalso
            rcases hcontrib with ⟨hcp, _⟩ | ⟨hcp, _⟩ | ⟨hpy3, _⟩
            · exact h2 hcp
            · exact h2 hcp
            · rw [h3] at hpy3
              exact absurd hpy3 (by decide)
      case isFalse h3 =>
        split at h
        case isTrue h4 =>
          injection h with h
          subst h
          rw [mem_setUpdate]
          constructor
          · rintro (hacc | hmem)
            · exact Or.inl hacc
            · rw [List.mem_map] at hmem
              obtain ⟨py, hpy, rfl⟩ := hmem
              exact Or.inr (Or.inr (Or.inr ⟨h4, py, hpy, rfl⟩))
          · rintro (hacc | hcontrib)
            · exact Or.inl hacc
            · rcases hcontrib with ⟨hcp, _⟩ | ⟨hcp, _⟩ | ⟨_, py, hpy, rfl⟩
              · exact absurd hcp h2
              · exact absurd hcp h2
              · exact Or.inr (List.mem_map.2 ⟨py, hpy, rfl⟩)
        case isFalse h4 => exact Except.noConfusion h

theorem pythonsToCheckFold_mem (tags : List Tag) :
    ∀ (acc ret : List String), List.foldlM pythonsToCheckStep acc tags = .ok ret →
      ∀ p, p ∈ ret ↔ p ∈ acc ∨ ∃ t ∈ tags, contributesSpec t p := by
  induction tags with
  | nil =>
    intro acc ret h p
    rw [List.foldlM_nil] at h
    injection h with h
    subst h
    simp
  | cons t ts ih =>
    intro acc ret h p
    rw [List.foldlM_cons] at h
    rcases hstep : pythonsToCheckStep acc t with e | acc'
    · rw [hstep] at h
      exact Except.noConfusion h
    · rw [hstep] at h
      have h2 := ih acc' ret h p
      rw [h2, pythonsToCheckStep_mem acc t acc' hstep p]
      simp only [List.mem_cons]
      constructor
      · rintro ((hacc | hc) | ⟨t2, ht2, hc2⟩)
        · exact Or.inl hacc
        · exact Or.inr ⟨t, Or.inl rfl, hc⟩
        · exact Or.inr ⟨t2, Or.inr ht2, hc2⟩
      · rintro (hacc | ⟨t2, (rfl | ht2), hc2⟩)
        · exact Or.inl (Or.inl hacc)
        · exact Or.inl (Or.inr hc2)
        · exact Or.inr ⟨t2, ht2, hc2⟩

/-- Claim C3: for every well-formed tag set, membership in
`_pythons_to_check`'s result is the union over all tags of the per-tag
contribution: exact CPython tags give exactly their interpreter, `abi3`
tags every supported interpreter at or above their minimum, `py3` every
supported interpreter, and `py2` nothing. -/
theorem pythons_to_check_union (tags : List Tag) (r : List String)
    (h : pythons_to_check tags = .ok r) (p : String) :
    p ∈ r ↔ ∃ t ∈ tags, contributesSpec t p := by
  rcases hf : List.foldlM pythonsToCheckStep [] tags with e | ret
  · have hpc : pythons_to_check tags = .error e := by
      unfold pythons_to_check
      rw [hf]
    rw [hpc] at h
    exact Except.noConfusion h
  · by_cases hret : ret = []
    · have hpc : pythons_to_check tags = .error "no interpreters found" := by
        unfold pythons_to_check
        rw [hf, hret]
        rfl
      rw [hpc] at h
      exact Except.noConfusion h
    · have hpc : pythons_to_check tags = .ok (sortStrings ret) := by
        unfold pythons_to_check
        rw [hf]
        exact if_neg hret
      rw [hpc] at h
      injection h with h
      subst h
      rw [mem_sortStrings, pythonsToCheckFold_mem tags [] ret hf p]
      simp

/-- Witness for C3: a `cp39-abi3` tag set yields exactly the supported
interpreters at or above 3.9. -/
theorem pythons_to_check_union_witness :
    ("python3.9" ∈ ["python3.10", "python3.9"] ↔
      ∃ t ∈ [Tag.mk "cp39" "abi3" "manylinux1_x86_64"], contributesSpec t "python3.9") :=
  pythons_to_check_union [Tag.mk "cp39" "abi3" "manylinux1_x86_64"]
    ["python3.10", "python3.9"] (by decide) "python3.9"

theorem pythonsToCheckFold_py2 (tags : List Tag) :
    ∀ acc : List String, (∀ t ∈ tags, t.interpreter = "py2") →
      List.foldlM pythonsToCheckStep acc tags = .ok acc := by
  induction tags with
  | nil => intro acc _; rfl
  | cons t ts ih =>
    intro acc hall
    rw [List.foldlM_cons]
    have ht : t.interpreter = "py2" := hall t (List.mem_cons_self t ts)
    have hstep : pythonsToCheckStep acc t = .ok acc := by
      simp [pythonsToCheckStep, ht, (show strStartsWith "py2" "cp" = false by decide)]
    rw [hstep]
    exact ih acc fun t2 ht2 => hall t2 (List.mem_cons_of_mem t ht2)

/-- Claim C4, amended: validate.py uses `_pythons_to_check`'s result
directly — the manifest entry's `Info` carries no interpreter-version
constraint and no intersection is performed — and the fatal
empty-result check applies to the tag-derived set itself, inside
`_pythons_to_check` (for example for an all-`py2` tag set). -/
theorem pythons_used_without_intersection :
    (∀ (tags : List Tag) (info : Info), pythons_validated tags info = pythons_to_check tags) ∧
    (∀ tags : List Tag, (∀ t ∈ tags, t.interpreter = "py2") →
      exOk (pythons_to_check tags) = false) := by
  refine ⟨fun tags info => rfl, fun tags hall => ?_⟩
  have hpc : pythons_to_check tags = .error "no interpreters found" := by
    unfold pythons_to_check
    rw [pythonsToCheckFold_py2 tags [] hall]
    rfl
  rw [hpc]
  rfl

/-- Witness for C4's amended theorem. -/
theorem pythons_used_without_intersection_witness :
    pythons_validated [] ⟨none, []⟩ = pythons_to_check [] ∧
    exOk (pythons_to_check [Tag.mk "py2" "none" "any"]) = false :=
  ⟨pythons_used_without_intersection.1 [] ⟨none, []⟩,
    pythons_used_without_intersection.2 [Tag.mk "py2" "none" "any"] (by decide)⟩

/-- Counterexample to claim C4 as stated: for the tag set `{cp38-cp38-...}`
and a manifest constraint allowing only `python3.9`, the spec-modelled
intersect-then-check (`pythons_to_check_spec`) is a fatal configuration
error, yet validate.py validates with `python3.8` — an interpreter the
constraint excludes — because no intersection is performed. -/
theorem pythons_constraint_not_intersected_cex :
    pythons_validated [Tag.mk "cp38" "cp38" "manylinux1_x86_64"] ⟨none, []⟩ =
      .ok ["python3.8"] ∧
    exOk (pythons_to_check_spec [Tag.mk "cp38" "cp38" "manylinux1_x86_64"]
      ["python3.9"]) = false ∧
    "python3.8" ∉ (["python3.9"] : List String) :=
  ⟨by decide, by decide, by decide⟩

/-- Claim C7 (code bug): the manifest key `validate_skip_imports` —
declared a validate-only setting by build.py — is silently dropped by
validate.py's `Info.from_dct`, and the import phase imports every unit
`_top_imports` derives: a unit the manifest declares as skipped (here
`foo`) is still imported. -/
theorem validate_imports_skip_ignored :
    Info.from_dct [("validate_skip_imports", "foo")] = ⟨none, []⟩ ∧
    validate_imports [⟨"foo-1.0.dist-info/top_level.txt", "foo\n"⟩] = .ok ["foo"] :=
  ⟨by decide, by decide⟩

end PyPi
